import Mathlib

/-!
Verification development for the Stroskovnik timesheet parser
(src/pdf-parser/stroskovnik_parser.py).

The Python source is shallowly embedded here:

* Python strings are modelled as Lean `String` / `List Char`; the handful of
  string primitives the parser uses (`strip`, `lower`, `replace`, `split`,
  `in`, f-string `:02d` padding, `int(...)`, `float(...)`) are given explicit
  executable models below, faithful to CPython behaviour on the ASCII /
  decimal inputs the parser manipulates.  (Python's `float` also accepts
  exponent / underscore / inf forms that never occur in timesheet cells;
  those forms simply fail to parse in the model.  `None` grid cells, which
  CPython renders as the truthy string "None", are modelled as `""`; both
  variants contain no digit and parse as no number.)
* Python `float` arithmetic is idealised as exact `ℚ` arithmetic.
* Python `round` (banker's rounding, ties to even) is `pyRound` below.
* Python `//` and `%` on ints with the positive divisor 60 coincide with
  Lean's `Int` `/` and `%` (Euclidean = floor division for positive divisors).
* `random.randint(-s, s)` draws are modelled as explicit integer inputs
  (a stream `offs : Nat → ℤ` with a counter for the stateful loop).
* Mutation of the `working_days` list / `day_data` dicts is modelled by
  explicit state passing; a missing dict key is an `Option` `none`;
  code paths that would raise (`KeyError`, `int(...)` failure) return `none`.
-/

/-- Python `\s` whitespace class (ASCII part): space, tab, newline,
carriage return, vertical tab, form feed. -/
def py_is_space (c : Char) : Bool :=
  c == ' ' || c == '\t' || c == '\n' || c == '\r' ||
    c == Char.ofNat 11 || c == Char.ofNat 12

/-- Python `str.strip()` on a character list. -/
def py_strip_chars (l : List Char) : List Char :=
  ((l.dropWhile py_is_space).reverse.dropWhile py_is_space).reverse

/-- Python `str.strip()`. -/
def py_strip (s : String) : String :=
  String.mk (py_strip_chars s.toList)

/-- Python `str.lower()` (ASCII; the keywords compared against are ASCII). -/
def py_lower (s : String) : String :=
  String.mk (s.toList.map Char.toLower)

/-- Python `str.replace(',', '.')` (single-character replacement). -/
def replace_commas (l : List Char) : List Char :=
  l.map (fun c => if c = ',' then '.' else c)

/-- Does `pat` occur as a prefix of `text`? -/
def starts_with : List Char → List Char → Bool
  | [], _ => true
  | _ :: _, [] => false
  | a :: as, b :: bs => a == b && starts_with as bs

/-- Does `pat` occur as a contiguous substring of `text`?
Models Python's `pat in text`. -/
def contains_from : List Char → List Char → Bool
  | pat, [] => starts_with pat []
  | pat, c :: rest => starts_with pat (c :: rest) || contains_from pat rest

/-- Python `needle in hay` for strings. -/
def str_contains (hay needle : String) : Bool :=
  contains_from needle.toList hay.toList

/-- Python `' '.join(...)`. -/
def join_space : List String → String
  | [] => ""
  | [s] => s
  | s :: rest => s ++ " " ++ join_space rest

/-- Decimal digits of `n`, most significant first; `fuel`-structured so that
the kernel can evaluate it (`fuel > n` suffices). -/
def nat_repr_aux : Nat → Nat → List Char
  | 0, _ => []
  | fuel + 1, n =>
    if n < 10 then [Nat.digitChar n]
    else nat_repr_aux fuel (n / 10) ++ [Nat.digitChar (n % 10)]

/-- Python `str(n)` for a natural number. -/
def nat_repr (n : Nat) : List Char := nat_repr_aux (n + 1) n

/-- Python `str(n)` for an integer. -/
def int_repr (n : ℤ) : List Char :=
  if n < 0 then '-' :: nat_repr n.natAbs else nat_repr n.toNat

/-- Python f-string `f"{n:02d}"`: zero-pad nonnegative single digits to
width 2; other values print as `str(n)`. -/
def pad2_chars (n : ℤ) : List Char :=
  if 0 ≤ n ∧ n ≤ 9 then '0' :: nat_repr n.toNat else int_repr n

/-- Model of `_format_time` (source lines 262-266): `f"{m // 60:02d}:{m % 60:02d}"`.
Lean's `Int` `/` and `%` are floor division / nonnegative remainder for the
positive divisor 60, exactly like Python's `//` and `%`. -/
def format_time (total_minutes : ℤ) : String :=
  String.mk (pad2_chars (total_minutes / 60) ++ ':' :: pad2_chars (total_minutes % 60))

/-- Big-endian decimal accumulator; fails on any non-digit character. -/
def parse_digits_aux (acc : Nat) : List Char → Option Nat
  | [] => some acc
  | c :: cs => if c.isDigit then parse_digits_aux (acc * 10 + (c.toNat - 48)) cs else none

/-- Python `int(s)` on an optionally signed digit string (as used on the
parts of an `"HH:MM"` split; whitespace/underscore forms unmodelled). -/
def parse_int_chars : List Char → Option ℤ
  | [] => none
  | c :: cs =>
    if c = '-' then
      if cs = [] then none else (parse_digits_aux 0 cs).map (fun n => -(n : ℤ))
    else if c = '+' then
      if cs = [] then none else (parse_digits_aux 0 cs).map (fun n => (n : ℤ))
    else (parse_digits_aux 0 (c :: cs)).map (fun n => (n : ℤ))

/-- Python `s.split(':')`. -/
def split_colon : List Char → List (List Char)
  | [] => [[]]
  | c :: cs =>
    if c = ':' then [] :: split_colon cs
    else
      match split_colon cs with
      | [] => [[c]]
      | p :: ps => (c :: p) :: ps

/-- Model of `parts = s.split(':'); int(parts[0]) * 60 + int(parts[1])` — the
minute count read back from an `"HH:MM"` string (source lines 487-488 and,
with exactly-two-parts unpacking, lines 245-246); `none` models the raised
exception on malformed input. -/
def hhmm_to_minutes (s : String) : Option ℤ :=
  match split_colon s.toList with
  | p0 :: p1 :: _ =>
    match parse_int_chars p0, parse_int_chars p1 with
    | some h, some m => some (h * 60 + m)
    | _, _ => none
  | _ => none

/-- Value of a digit list, most significant first. -/
def digits_to_nat (l : List Char) : Nat :=
  l.foldl (fun a c => a * 10 + (c.toNat - 48)) 0

/-- Model of `re.search(r'(\d{1,2})', s)`: the first (greedy, at most two digit)
integer embedded in `s` (source line 158). -/
def first_day_number : List Char → Option Nat
  | [] => none
  | c :: rest =>
    if c.isDigit then
      match rest with
      | d :: _ =>
        if d.isDigit then some ((c.toNat - 48) * 10 + (d.toNat - 48))
        else some (c.toNat - 48)
      | [] => some (c.toNat - 48)
    else first_day_number rest

/-- Unsigned decimal literal body of Python `float(s)`:
`digits`, `digits.`, `digits.digits` or `.digits`. -/
def py_float_body (l : List Char) : Option ℚ :=
  let intPart := l.takeWhile Char.isDigit
  let rest := l.drop intPart.length
  match rest with
  | [] => if intPart = [] then none else some (digits_to_nat intPart : ℚ)
  | '.' :: frac =>
    if frac.all Char.isDigit ∧ (intPart ≠ [] ∨ frac ≠ []) then
      some ((digits_to_nat intPart : ℚ) + (digits_to_nat frac : ℚ) / (10 ^ frac.length : ℚ))
    else none
  | _ => none

/-- Python `float(s)` on plain (optionally signed) decimal literals,
idealised to `ℚ`; `none` models a raised `ValueError`. -/
def py_float (s : String) : Option ℚ :=
  match s.toList with
  | '-' :: rest => (py_float_body rest).map Neg.neg
  | '+' :: rest => py_float_body rest
  | rest => py_float_body rest

/-- Python `round(q)` on the exact value `q`: nearest integer, ties to the
even neighbour. -/
def pyRound (q : ℚ) : ℤ :=
  let f : ℤ := q.num / q.den
  if q - (f : ℚ) < 1 / 2 then f
  else if (1 : ℚ) / 2 < q - (f : ℚ) then f + 1
  else if f % 2 = 0 then f else f + 1

/-- One grid extracted from a page: rows of cells. -/
abbrev Grid := List (List String)

/-- The `day_data` dict built at source lines 217-225, plus the three keys
`_calculate_times_for_all_days` adds later (`Option` = key may be absent). -/
structure DayData where
  day : Nat
  totalHours001 : ℚ
  totalHours002 : ℚ
  hasBusinessTrip : Bool
  type : String
  totalHours : ℚ
  projectCode : String
  arrival : Option String := none
  departure : Option String := none
  breakMinutes : Option ℤ := none
deriving DecidableEq

/-- Creation of a fresh `day_data` entry (source lines 217-226). -/
def new_day_data (day : Nat) (work_type : String) (hours : ℚ) (project_code : String) :
    DayData where
  day := day
  totalHours001 := if work_type = "normal-work" then hours else 0
  totalHours002 := if work_type = "business-trip" then hours else 0
  hasBusinessTrip := work_type = "business-trip"
  type := if work_type = "business-trip" ∨ work_type = "normal-work" then work_type
          else "normal-work"
  totalHours := if work_type = "business-trip" ∨ work_type = "normal-work" then hours else 0
  projectCode := project_code

/-- Merge of `hours` into an existing day entry (source lines 204-214):
add to the matching accumulator, recompute `totalHours`, and set the
business-trip type whenever any `002` hours are present. -/
def merge_into (d : DayData) (work_type : String) (hours : ℚ) : DayData :=
  let d1 :=
    if work_type = "business-trip" then { d with totalHours002 := d.totalHours002 + hours }
    else if work_type = "normal-work" then { d with totalHours001 := d.totalHours001 + hours }
    else d
  let d2 := { d1 with totalHours := d1.totalHours001 + d1.totalHours002 }
  if 0 < d2.totalHours002 then { d2 with type := "business-trip", hasBusinessTrip := true }
  else d2

/-- Model of `next((d for d in working_days if d["day"] == day), None)` (source
line 202). -/
def find_day (working_days : List DayData) (day : Nat) : Option DayData :=
  working_days.find? (fun d => d.day == day)

/-- Source lines 201-226: mutate the first entry for `day` in place if one
exists, else append a new entry at the end. -/
def add_hours : List DayData → Nat → String → ℚ → String → List DayData
  | [], day, work_type, hours, project_code => [new_day_data day work_type hours project_code]
  | d :: ds, day, work_type, hours, project_code =>
    if d.day = day then merge_into d work_type hours :: ds
    else d :: add_hours ds day work_type hours project_code

/-- Source lines 190-199: the positive parsed value of the cell at `col_idx`,
or `none` when the cell is out of bounds, empty, a zero literal, unparseable,
or nonpositive (each of those `continue`s contributing nothing). -/
def cell_positive_hours (row : List String) (col_idx : Nat) : Option ℚ :=
  if row.length ≤ col_idx then none
  else
    let hours_str := py_strip_chars (replace_commas (row.getD col_idx "").toList)
    if hours_str = [] ∨ hours_str = ['0'] ∨ hours_str = ['0', '.', '0'] ∨
        hours_str = ['0', ',', '0'] then none
    else
      match py_float (String.mk hours_str) with
      | none => none
      | some hours => if 0 < hours then some hours else none

/-- Body of the per-day loop at source lines 190-229. -/
def process_cell (working_days : List DayData) (row : List String)
    (work_type project_code : String) (day col_idx : Nat) : List DayData :=
  match cell_positive_hours row col_idx with
  | some hours => add_hours working_days day work_type hours project_code
  | none => working_days

/-- Python-dict insertion: `m[k] = v` keeps the original slot of an existing
key and appends a fresh key at the end. -/
def dict_insert (m : List (Nat × Nat)) (k v : Nat) : List (Nat × Nat) :=
  match m with
  | [] => [(k, v)]
  | (k', v') :: rest => if k' = k then (k, v) :: rest else (k', v') :: dict_insert rest k v

/-- Source lines 154-162: map day numbers in `[1, 31]` embedded in header
cells to their column index (`day_columns[day_num] = i`). -/
def build_day_columns (header : List String) : List (Nat × Nat) :=
  header.enum.foldl
    (fun m ic =>
      match first_day_number (py_strip_chars ic.2.toList) with
      | some d => if 1 ≤ d ∧ d ≤ 31 then dict_insert m d ic.1 else m
      | none => m)
    []

/-- Model of `max(day_columns.values())` (source line 169; only used on nonempty
maps, where the 0 default is inert). -/
def dict_values_max (m : List (Nat × Nat)) : Nat :=
  (m.map Prod.snd).foldl max 0

/-- Model of `' '.join(str(cell) for cell in header if cell)` (source line 148). -/
def header_text (header : List String) : String :=
  join_space (header.filter (fun c => ¬ c = ""))

/-- Source line 174: is the (lowercased, stripped) first cell a
total/summary keyword row? -/
def is_summary_row (first_cell : String) : Bool :=
  ["vsota", "total", "skupaj", "sum"].any (fun kw => str_contains first_cell kw)

/-- One data row (source lines 168-229): rows not longer than the largest
mapped column index are skipped whole, summary rows are skipped, otherwise
every mapped `(day, column)` cell is folded into `working_days`. -/
def process_row (working_days : List DayData) (day_columns : List (Nat × Nat))
    (row : List String) : List DayData :=
  if row.length ≤ dict_values_max day_columns then working_days
  else
    let first_cell := py_lower (py_strip (row.headD ""))
    if is_summary_row first_cell then working_days
    else
      let work_type_code := if 2 < row.length then py_strip (row.getD 2 "") else "001"
      let work_type :=
        if work_type_code = "001" then "normal-work"
        else if work_type_code = "002" then "business-trip"
        else "other"
      let project_code := py_strip (row.headD "")
      day_columns.foldl
        (fun acc dc => process_cell acc row work_type project_code dc.1 dc.2) working_days

/-- One table (source lines 142-229): accepted iff it has a header plus data
and the joined header mentions the marker text, then folded row by row. -/
def process_table (working_days : List DayData) (table : Grid) : List DayData :=
  if table.length < 2 then working_days
  else
    let header := table.headD []
    let ht := header_text header
    if ¬ str_contains ht "Dejanske" ∧ ¬ str_contains ht "ure" then working_days
    else
      let day_columns := build_day_columns header
      if day_columns = [] then working_days
      else (table.drop 1).foldl (fun acc row => process_row acc day_columns row) working_days

/-- Stable insertion keeping earlier equal-day entries first. -/
def insert_by_day (d : DayData) : List DayData → List DayData
  | [] => [d]
  | e :: es => if d.day < e.day then d :: e :: es else e :: insert_by_day d es

/-- Model of `sorted(working_days, key=lambda x: x["day"])` (source line 231). -/
def sort_by_day (l : List DayData) : List DayData :=
  l.foldl (fun acc d => insert_by_day d acc) []

/-- Model of `_parse_stroskovnik_table` (source lines 138-231). -/
def parse_stroskovnik_table (tables : List Grid) : List DayData :=
  sort_by_day (tables.foldl process_table [])

/-- The dict returned by `calculate_times` (source lines 256-260). -/
structure TimesResult where
  arrival : String
  departure : String
  break_minutes : ℤ
deriving DecidableEq

/-- Model of `calculate_times` (source lines 242-260). `base_minutes` is
`hours * 60 + minutes` parsed from the configured `"HH:MM"` arrival time
(line 245-246) and `variation` is the value drawn by
`random.randint(-scattering, scattering)` at line 249. -/
def calculate_times (base_minutes variation : ℤ) (total_hours : ℚ) : TimesResult :=
  let arrival_minutes := base_minutes + variation
  let break_minutes := pyRound (30 * (total_hours / 8))
  let work_minutes := pyRound (total_hours * 60)
  let departure_minutes := arrival_minutes + work_minutes
  { arrival := format_time arrival_minutes
    departure := format_time departure_minutes
    break_minutes := break_minutes }

/-- Model of `_calculate_times_for_all_days` (source lines 458-465): walk the records,
and for each non-business-trip record that has no stored `"arrival"`, draw
the next random offset (`offs k`) and store the computed times on it.  The
returned counter tracks how many random draws were consumed. -/
def calculate_times_for_all_days (base_minutes : ℤ) (offs : Nat → ℤ) :
    Nat → List DayData → List DayData × Nat
  | k, [] => ([], k)
  | k, d :: ds =>
    if ¬ d.type = "business-trip" ∧ d.arrival = none then
      let t := calculate_times base_minutes (offs k) d.totalHours001
      let d' := { d with arrival := some t.arrival, departure := some t.departure,
                         breakMinutes := some t.break_minutes }
      let rest := calculate_times_for_all_days base_minutes offs (k + 1) ds
      (d' :: rest.1, rest.2)
    else
      let rest := calculate_times_for_all_days base_minutes offs k ds
      (d :: rest.1, rest.2)

/-- The `secondary_work` dict (always built with all three keys by both
callers, source lines 569-574 and 669-674). -/
structure SecondaryWork where
  name : String
  percent : ℚ
  include_breaks : Bool

/-- One entry of `secondary_table_data` (source lines 478-515): exactly the
keys the code writes; business-trip entries carry no times. -/
structure SecondaryDayData where
  day : Nat
  type : String
  totalHours001 : ℚ
  totalHours002 : ℚ
  hasBusinessTrip : Bool
  arrival : Option String := none
  departure : Option String := none
  breakMinutes : Option ℤ := none
deriving DecidableEq

/-- Body of the per-day loop of `_create_secondary_data` (source lines
476-515).  `none` models the `KeyError` / `ValueError` that reading and
splitting a missing or malformed `"departure"` would raise. -/
def secondary_entry (sw : SecondaryWork) (d : DayData) : Option SecondaryDayData :=
  if d.type = "business-trip" then
    some { day := d.day, type := "business-trip", totalHours001 := 0,
           totalHours002 := d.totalHours002, hasBusinessTrip := true }
  else
    match d.departure with
    | none => none
    | some dep =>
      match hhmm_to_minutes dep with
      | none => none
      | some departure_minutes_primary =>
        let arrival_minutes_secondary := departure_minutes_primary
        let percent := sw.percent / 100
        let work_hours_secondary := percent * 8
        let break_minutes_secondary :=
          if sw.include_breaks then pyRound (30 * (work_hours_secondary / 8)) else 0
        let work_minutes_secondary := pyRound (work_hours_secondary * 60)
        let departure_minutes_secondary := arrival_minutes_secondary + work_minutes_secondary
        some { day := d.day, type := "normal-work", totalHours001 := work_hours_secondary,
               totalHours002 := 0, hasBusinessTrip := false,
               arrival := some (format_time arrival_minutes_secondary),
               departure := some (format_time departure_minutes_secondary),
               breakMinutes := some break_minutes_secondary }

/-- The loop at source lines 475-515 building `secondary_table_data`;
`none` models a raised exception aborting the build. -/
def option_map_list (f : DayData → Option SecondaryDayData) :
    List DayData → Option (List SecondaryDayData)
  | [] => some []
  | d :: ds =>
    match f d, option_map_list f ds with
    | some e, some es => some (e :: es)
    | _, _ => none

/-- Model of `_create_secondary_data` (source lines 467-518; the second definition of
that name in the file, which in Python shadows the dead first one at lines
428-456): first compute-and-store times for the primary records, then derive
the day-aligned secondary sequence.  Returns the (mutated) primary records
together with the secondary ones. -/
def create_secondary_data (base_minutes : ℤ) (offs : Nat → ℤ) (sw : SecondaryWork)
    (table_data : List DayData) : Option (List DayData × List SecondaryDayData) :=
  let primary := (calculate_times_for_all_days base_minutes offs 0 table_data).1
  match option_map_list (secondary_entry sw) primary with
  | some sec => some (primary, sec)
  | none => none

/-- Capture of `\s*([^\n]+)` right after a matched label: greedily skip
whitespace (newlines included) and take the following non-newline run; when
only whitespace remains, regex backtracking still matches the last
non-newline whitespace character, and the position fails only when every
remaining character is a newline. -/
def capture_rest_of_line (after : List Char) : Option (List Char) :=
  let w := after.takeWhile py_is_space
  let rem := after.drop w.length
  if ¬ rem = [] then some (rem.takeWhile (fun c => ¬ c = '\n'))
  else
    match w.reverse.dropWhile (fun c => c = '\n') with
    | [] => none
    | c :: _ => some [c]

/-- Model of `re.search(label + r'\s*([^\n]+)', text)` scanning left to right
(source lines 90 and 98); returns the raw capture group. -/
def search_label (label : List Char) : List Char → Option (List Char)
  | [] => none
  | c :: rest =>
    if starts_with label (c :: rest) then
      match capture_rest_of_line ((c :: rest).drop label.length) with
      | some cap => some cap
      | none => search_label label rest
    else search_label label rest

/-- Exactly `n` decimal digits, returning them and the remaining input. -/
def take_n_digits : Nat → List Char → Option (List Char × List Char)
  | 0, s => some ([], s)
  | _ + 1, [] => none
  | n + 1, c :: s =>
    if c.isDigit then (take_n_digits n s).map (fun p => (c :: p.1, p.2))
    else none

/-- One literal character. -/
def expect_char (c : Char) : List Char → Option (List Char)
  | [] => none
  | c' :: s => if c' = c then some s else none

/-- Attempt of `(\d{2})\.(\d{2})\.(\d{4})\s*-\s*(\d{2})\.(\d{2})\.(\d{4})`
at the start of `s` (source line 105), returning the captured start month
and start year digit groups. -/
def try_date_range_at (s : List Char) : Option (List Char × List Char) := do
  let (_, s) ← take_n_digits 2 s
  let s ← expect_char '.' s
  let (m1, s) ← take_n_digits 2 s
  let s ← expect_char '.' s
  let (y1, s) ← take_n_digits 4 s
  let s := s.dropWhile py_is_space
  let s ← expect_char '-' s
  let s := s.dropWhile py_is_space
  let (_, s) ← take_n_digits 2 s
  let s ← expect_char '.' s
  let (_, s) ← take_n_digits 2 s
  let s ← expect_char '.' s
  let (_, _) ← take_n_digits 4 s
  pure (m1, y1)

/-- Model of `re.search` with the date-range pattern: first matching position. -/
def search_date_range : List Char → Option (List Char × List Char)
  | [] => none
  | c :: rest =>
    match try_date_range_at (c :: rest) with
    | some r => some r
    | none => search_date_range rest

/-- Model of `_get_month_name` (source lines 130-136). -/
def get_month_name (month_num : Nat) : String :=
  if month_num = 1 then "januar" else if month_num = 2 then "februar"
  else if month_num = 3 then "marec" else if month_num = 4 then "april"
  else if month_num = 5 then "maj" else if month_num = 6 then "junij"
  else if month_num = 7 then "julij" else if month_num = 8 then "avgust"
  else if month_num = 9 then "september" else if month_num = 10 then "oktober"
  else if month_num = 11 then "november" else if month_num = 12 then "december"
  else "oktober"

/-- The dict returned by `_parse_extracted_data` (source lines 121-128). -/
structure ParsedData where
  name : String
  period : String
  month : String
  year : String
  working_days : Nat
  table_data : List DayData
deriving DecidableEq

/-- Model of `_parse_extracted_data` (source lines 87-128): fail when the name label
or the period label is absent; when the period line lacks a
dd.mm.yyyy-dd.mm.yyyy range, fall back to the raw line (and to the
`'month_name' in locals()` defaults "oktober" / "2025"); fail when no
working days were aggregated. -/
def parse_extracted_data (text : String) (tables : List Grid) : Option ParsedData :=
  match search_label "Ime in priimek:".toList text.toList with
  | none => none
  | some name_raw =>
    let name := String.mk (py_strip_chars name_raw)
    match search_label "STROŠKOVNIK ZA ODBOBJE:".toList text.toList with
    | none => none
    | some period_raw =>
      let period_str := py_strip_chars period_raw
      let working_days := parse_stroskovnik_table tables
      match search_date_range period_str with
      | some my =>
        let month_name := get_month_name (digits_to_nat my.1)
        let period := month_name ++ " " ++ String.mk my.2
        if working_days = [] then none
        else some { name := name, period := period, month := py_lower month_name,
                    year := String.mk my.2, working_days := working_days.length,
                    table_data := working_days }
      | none =>
        if working_days = [] then none
        else some { name := name, period := String.mk period_str, month := "oktober",
                    year := "2025", working_days := working_days.length,
                    table_data := working_days }

/-- Concrete record used by the C1 witness: day 3 with one business-trip
hour already recorded. -/
def c1_record : DayData :=
  { day := 3, totalHours001 := 2, totalHours002 := 1, hasBusinessTrip := true,
    type := "business-trip", totalHours := 3, projectCode := "p" }

/-- The DayRecord invariant of the spec: day in range and the total equal to
the sum of the two accumulators. -/
def record_wf (r : DayData) : Prop :=
  1 ≤ r.day ∧ r.day ≤ 31 ∧ r.totalHours = r.totalHours001 + r.totalHours002

/-- The minimal concrete grid used by several witnesses: marker text and
day 1 in the single header cell, one data row with 8 hours. -/
def tiny_grid : Grid := [["ure 1"], ["8"]]

/-- A record the synthesis loop will not touch: business-trip type, or times
already stored (the loop guard at source line 461 is false). -/
def synth_stable (d : DayData) : Prop :=
  ¬ (¬ d.type = "business-trip" ∧ d.arrival = none)

/-- Business-trip record used by the C6 and C10 witnesses. -/
def trip_record : DayData :=
  { day := 4, totalHours001 := 0, totalHours002 := 3, hasBusinessTrip := true,
    type := "business-trip", totalHours := 3, projectCode := "p" }

/-- Normal-work aggregator record (no times yet) used by witnesses. -/
def normal_record : DayData :=
  { day := 2, totalHours001 := 8, totalHours002 := 0, hasBusinessTrip := false,
    type := "normal-work", totalHours := 8, projectCode := "p" }

/-- Concrete secondary-work configuration used by the C4 witness. -/
def sw_half : SecondaryWork := { name := "S", percent := 50, include_breaks := true }

/-- C7 counterexample grid: day 1 maps to column 1 (in bounds for the data
row) and day 5 maps to column 5 (beyond the data row's end). -/
def c7_grid : Grid := [["Dejanske ure", "1", "a", "b", "c", "5"], ["001", "8", "001", "0"]]

/-- The grid of the spec's Example A. -/
def c8_grid : Grid :=
  [["Šifra", "1", "2", "3", "Dejanske ure"], ["001", "proj", "001", "8", "0", "", "4"]]

/-- Page text used by the C9 counterexample: both labels present, but no
dd.mm.yyyy-dd.mm.yyyy date range anywhere. -/
def c9_text : String := "Ime in priimek: A\nSTROŠKOVNIK ZA ODBOBJE: maj 2025\n"

lemma digitChar_isDigit {n : Nat} (h : n < 10) : (Nat.digitChar n).isDigit = true := by
  interval_cases n <;> decide

lemma digitChar_toNat {n : Nat} (h : n < 10) : (Nat.digitChar n).toNat - 48 = n := by
  interval_cases n <;> decide

lemma nat_repr_aux_ne_nil {fuel n : Nat} (h : n < fuel) : nat_repr_aux fuel n ≠ [] := by
  cases fuel with
  | zero => omega
  | succ f =>
    rw [nat_repr_aux]
    split <;> simp

lemma nat_repr_aux_digits {fuel : Nat} :
    ∀ {n : Nat}, n < fuel → ∀ c ∈ nat_repr_aux fuel n, c.isDigit = true := by
  induction fuel with
  | zero => intro n h; omega
  | succ f ih =>
    intro n _ c hc
    rw [nat_repr_aux] at hc
    by_cases h10 : n < 10
    · rw [if_pos h10] at hc
      rw [List.mem_singleton] at hc
      subst hc
      exact digitChar_isDigit h10
    · rw [if_neg h10] at hc
      rw [List.mem_append, List.mem_singleton] at hc
      rcases hc with hc | hc
      · exact ih (by omega) c hc
      · subst hc
        exact digitChar_isDigit (by omega)

lemma parse_digits_aux_append (xs ys : List Char) :
    ∀ acc, parse_digits_aux acc (xs ++ ys) =
      (parse_digits_aux acc xs).bind (fun a => parse_digits_aux a ys) := by
  induction xs with
  | nil => intro acc; simp [parse_digits_aux]
  | cons c cs ih =>
    intro acc
    by_cases hd : c.isDigit
    · simp [parse_digits_aux, hd, ih]
    · simp [parse_digits_aux, hd]

lemma parse_digits_aux_nat_repr_aux {fuel : Nat} :
    ∀ {n : Nat} (acc : Nat), n < fuel →
      parse_digits_aux acc (nat_repr_aux fuel n) =
        some (acc * 10 ^ (nat_repr_aux fuel n).length + n) := by
  induction fuel with
  | zero => intro n acc h; omega
  | succ f ih =>
    intro n acc _
    by_cases h10 : n < 10
    · rw [nat_repr_aux]
      simp only [h10, if_true]
      simp [parse_digits_aux, digitChar_isDigit h10, digitChar_toNat h10]
    · rw [nat_repr_aux]
      simp only [h10, if_false]
      rw [parse_digits_aux_append]
      rw [ih acc (by omega)]
      rw [Option.some_bind]
      have h9 : n % 10 < 10 := by omega
      simp only [parse_digits_aux, digitChar_isDigit h9, if_true, digitChar_toNat h9]
      have h2 : n / 10 * 10 + n % 10 = n := by omega
      have h3 : (acc * 10 ^ (nat_repr_aux f (n / 10)).length + n / 10) * 10 + n % 10 =
          acc * (10 ^ (nat_repr_aux f (n / 10)).length * 10) + (n / 10 * 10 + n % 10) := by ring
      simp only [List.length_append, List.length_cons, List.length_nil, pow_succ]
      rw [h3, h2]

lemma parse_digits_nat_repr (n : Nat) : parse_digits_aux 0 (nat_repr n) = some n := by
  have := parse_digits_aux_nat_repr_aux 0 (Nat.lt_succ_self n)
  simpa [nat_repr] using this

lemma nat_repr_digits {n : Nat} : ∀ c ∈ nat_repr n, c.isDigit = true :=
  nat_repr_aux_digits (Nat.lt_succ_self n)

lemma nat_repr_ne_nil {n : Nat} : nat_repr n ≠ [] :=
  nat_repr_aux_ne_nil (Nat.lt_succ_self n)

lemma isDigit_ne_sign {c : Char} (h : c.isDigit = true) : ¬ c = '-' ∧ ¬ c = '+' := by
  constructor <;> intro he <;> subst he <;> simp at h

lemma parse_int_chars_cons (c : Char) (cs : List Char) :
    parse_int_chars (c :: cs) =
      if c = '-' then
        if cs = [] then none else (parse_digits_aux 0 cs).map (fun n => -(n : ℤ))
      else if c = '+' then
        if cs = [] then none else (parse_digits_aux 0 cs).map (fun n => (n : ℤ))
      else (parse_digits_aux 0 (c :: cs)).map (fun n => (n : ℤ)) := by
  rw [parse_int_chars]

lemma parse_int_chars_digits {l : List Char} (hne : l ≠ [])
    (hdig : ∀ c ∈ l, c.isDigit = true) {n : Nat} (hp : parse_digits_aux 0 l = some n) :
    parse_int_chars l = some (n : ℤ) := by
  cases l with
  | nil => exact absurd rfl hne
  | cons c cs =>
    have hd := hdig c (List.mem_cons_self c cs)
    have hs := isDigit_ne_sign hd
    rw [parse_int_chars_cons]
    rw [if_neg hs.1, if_neg hs.2, hp]
    rfl

lemma parse_int_chars_pad2 (z : ℤ) : parse_int_chars (pad2_chars z) = some z := by
  unfold pad2_chars
  by_cases h09 : 0 ≤ z ∧ z ≤ 9
  · rw [if_pos h09]
    have hp : parse_digits_aux 0 ('0' :: nat_repr z.toNat) = some z.toNat := by
      have h0 : parse_digits_aux 0 ('0' :: nat_repr z.toNat) =
          parse_digits_aux 0 (nat_repr z.toNat) := by
        simp [parse_digits_aux]
      rw [h0, parse_digits_nat_repr]
    rw [parse_int_chars_digits (by simp)
      (by
        intro c hc
        rw [List.mem_cons] at hc
        rcases hc with hc | hc
        · subst hc; decide
        · exact nat_repr_digits c hc) hp]
    congr 1
    omega
  · rw [if_neg h09]
    unfold int_repr
    by_cases hneg : z < 0
    · rw [if_pos hneg, parse_int_chars_cons]
      rw [if_pos rfl, if_neg nat_repr_ne_nil, parse_digits_nat_repr]
      show some (-(z.natAbs : ℤ)) = some z
      congr 1
      omega
    · rw [if_neg hneg,
        parse_int_chars_digits nat_repr_ne_nil nat_repr_digits (parse_digits_nat_repr z.toNat)]
      congr 1
      omega

lemma pad2_mem {z : ℤ} {c : Char} (hc : c ∈ pad2_chars z) : c.isDigit = true ∨ c = '-' := by
  unfold pad2_chars int_repr at hc
  by_cases h09 : 0 ≤ z ∧ z ≤ 9
  · rw [if_pos h09, List.mem_cons] at hc
    rcases hc with hc | hc
    · left; subst hc; decide
    · exact Or.inl (nat_repr_digits c hc)
  · rw [if_neg h09] at hc
    by_cases hneg : z < 0
    · rw [if_pos hneg, List.mem_cons] at hc
      rcases hc with hc | hc
      · exact Or.inr hc
      · exact Or.inl (nat_repr_digits c hc)
    · rw [if_neg hneg] at hc
      exact Or.inl (nat_repr_digits c hc)

lemma pad2_chars_ne_colon (z : ℤ) : ∀ c ∈ pad2_chars z, ¬ c = ':' := by
  intro c hc he
  subst he
  rcases pad2_mem hc with h | h
  · simp at h
  · exact absurd h (by decide)

lemma split_colon_of_no_colon {l : List Char} (h : ∀ c ∈ l, ¬ c = ':') :
    split_colon l = [l] := by
  induction l with
  | nil => rfl
  | cons c cs ih =>
    rw [split_colon]
    rw [if_neg (h c (List.mem_cons_self c cs))]
    rw [ih (fun x hx => h x (List.mem_cons_of_mem c hx))]

lemma split_colon_append {a : List Char} (b : List Char) (h : ∀ c ∈ a, ¬ c = ':') :
    split_colon (a ++ ':' :: b) = a :: split_colon b := by
  induction a with
  | nil => simp [split_colon]
  | cons c cs ih =>
    rw [List.cons_append, split_colon]
    rw [if_neg (h c (List.mem_cons_self c cs))]
    rw [ih (fun x hx => h x (List.mem_cons_of_mem c hx))]

lemma toList_mk (l : List Char) : (String.mk l).toList = l := rfl

lemma hhmm_format_time (m : ℤ) : hhmm_to_minutes (format_time m) = some m := by
  unfold hhmm_to_minutes format_time
  rw [toList_mk, split_colon_append _ (pad2_chars_ne_colon _),
    split_colon_of_no_colon (pad2_chars_ne_colon _)]
  simp only [parse_int_chars_pad2, Option.some.injEq]
  omega

lemma pyRound_intCast (z : ℤ) : pyRound ((z : ℚ)) = z := by
  unfold pyRound
  rw [Rat.num_intCast, Rat.den_intCast]
  norm_num

lemma pyRound_nonneg {q : ℚ} (h : 0 ≤ q) : 0 ≤ pyRound q := by
  unfold pyRound
  dsimp only
  have hf : q.num / q.den = ⌊q⌋ := Rat.floor_def.symm
  have h0 : 0 ≤ ⌊q⌋ := Int.le_floor.mpr (by exact_mod_cast h)
  rw [hf]
  split_ifs <;> omega

lemma find_day_cons_pos {d : DayData} {day : Nat} (h : d.day = day) (ds : List DayData) :
    find_day (d :: ds) day = some d :=
  List.find?_cons_of_pos _ (by simp [h])

lemma find_day_cons_neg {d : DayData} {day : Nat} (h : ¬ d.day = day) (ds : List DayData) :
    find_day (d :: ds) day = find_day ds day :=
  List.find?_cons_of_neg _ (by simp [h])

lemma merge_into_normal_sticky {d : DayData} (h2 : 0 < d.totalHours002) (h : ℚ) :
    (merge_into d "normal-work" h).type = "business-trip" ∧
      (merge_into d "normal-work" h).totalHours002 = d.totalHours002 ∧
      (merge_into d "normal-work" h).day = d.day := by
  unfold merge_into
  rw [if_neg (by decide : ¬ ("normal-work" : String) = "business-trip"), if_pos rfl]
  dsimp only
  rw [if_pos h2]
  exact ⟨rfl, rfl, rfl⟩

lemma merge_into_day (d : DayData) (wt : String) (h : ℚ) :
    (merge_into d wt h).day = d.day := by
  unfold merge_into
  dsimp only
  split_ifs <;> rfl

lemma add_hours_sticky :
    ∀ (wd : List DayData) {day : Nat} {r : DayData}, find_day wd day = some r →
      0 < r.totalHours002 → ∀ (h : ℚ) (pc : String),
      ∃ r2, find_day (add_hours wd day "normal-work" h pc) day = some r2 ∧
        0 < r2.totalHours002 ∧ r2.type = "business-trip" := by
  intro wd
  induction wd with
  | nil =>
    intro day r hf
    rw [find_day] at hf
    simp [List.find?] at hf
  | cons d ds ih =>
    intro day r hf h2 h pc
    by_cases hd : d.day = day
    · rw [find_day_cons_pos hd] at hf
      injection hf with hf
      subst hf
      rw [add_hours, if_pos hd]
      obtain ⟨ht, h02, hday⟩ := merge_into_normal_sticky h2 h
      refine ⟨merge_into d "normal-work" h, ?_, ?_, ht⟩
      · exact find_day_cons_pos (by rw [hday, hd]) ds
      · rw [h02]; exact h2
    · rw [find_day_cons_neg hd] at hf
      rw [add_hours, if_neg hd]
      obtain ⟨r2, hr2, h02, ht⟩ := ih hf h2 h pc
      exact ⟨r2, by rw [find_day_cons_neg hd]; exact hr2, h02, ht⟩

/-- C1: Sticky dominance.  Once the aggregated record of a calendar day
carries business-trip hours (`totalHours002 > 0`, at which point the
aggregator has set its type to "business-trip"), any sequence of later
normal-work ("001") contributions merged into that day (source lines
204-214) keeps the day's type at "business-trip" and the recorded trip
hours intact: the type never reverts to normal-work. -/
theorem C1_sticky_dominance (wd : List DayData) (day : Nat) (r : DayData)
    (hf : find_day wd day = some r) (h2 : 0 < r.totalHours002)
    (ht : r.type = "business-trip") (contribs : List (ℚ × String)) :
    ∃ r2, find_day
        (contribs.foldl (fun acc c => add_hours acc day "normal-work" c.1 c.2) wd) day =
        some r2 ∧ r2.type = "business-trip" ∧ 0 < r2.totalHours002 := by
  induction contribs generalizing wd r with
  | nil => exact ⟨r, hf, ht, h2⟩
  | cons c cs ih =>
    obtain ⟨r1, hr1, h02, ht1⟩ := add_hours_sticky wd hf h2 c.1 c.2
    rw [List.foldl_cons]
    exact ih _ r1 hr1 h02 ht1

/-- C1 witness: the concrete record stays a business-trip record after a
later 5-hour normal-work contribution. -/
theorem C1_sticky_dominance_witness :
    (find_day [c1_record] 3 = some c1_record ∧ 0 < c1_record.totalHours002 ∧
      c1_record.type = "business-trip") ∧
    ∃ r2, find_day
        (([((5 : ℚ), "q")]).foldl
          (fun acc c => add_hours acc 3 "normal-work" c.1 c.2) [c1_record]) 3 =
        some r2 ∧ r2.type = "business-trip" ∧ 0 < r2.totalHours002 :=
  ⟨⟨by decide, by decide, by decide⟩,
   C1_sticky_dominance [c1_record] 3 c1_record (by decide) (by decide) (by decide)
     [((5 : ℚ), "q")]⟩

lemma foldl_inv_mem {α β : Type _} (P : β → Prop) (step : β → α → β) :
    ∀ (l : List α), (∀ b a, a ∈ l → P b → P (step b a)) →
      ∀ init, P init → P (l.foldl step init) := by
  intro l
  induction l with
  | nil => intro _ init h; exact h
  | cons a as ih =>
    intro hstep init h
    exact ih (fun b x hx hb => hstep b x (List.mem_cons_of_mem a hx) hb) _
      (hstep init a (List.mem_cons_self a as) h)

lemma dict_insert_mem {m : List (Nat × Nat)} {k v : Nat} {p : Nat × Nat}
    (hp : p ∈ dict_insert m k v) : p = (k, v) ∨ p ∈ m := by
  induction m with
  | nil =>
    rw [dict_insert, List.mem_singleton] at hp
    exact Or.inl hp
  | cons q m ih =>
    rw [dict_insert] at hp
    split_ifs at hp with h
    · rcases List.mem_cons.mp hp with h1 | h1
      · exact Or.inl h1
      · exact Or.inr (List.mem_cons_of_mem q h1)
    · rcases List.mem_cons.mp hp with h1 | h1
      · exact Or.inr (h1 ▸ List.mem_cons_self q m)
      · rcases ih h1 with h2 | h2
        · exact Or.inl h2
        · exact Or.inr (List.mem_cons_of_mem q h2)

lemma build_day_columns_bounds (header : List String) :
    ∀ p ∈ build_day_columns header, 1 ≤ p.1 ∧ p.1 ≤ 31 := by
  unfold build_day_columns
  refine foldl_inv_mem (fun m : List (Nat × Nat) => ∀ p ∈ m, 1 ≤ p.1 ∧ p.1 ≤ 31) _
    header.enum ?_ [] (by simp)
  intro m ic _ hm p hp
  rcases hfd : first_day_number (py_strip_chars ic.2.toList) with _ | d
  · rw [hfd] at hp
    exact hm p hp
  · rw [hfd] at hp
    dsimp only at hp
    split_ifs at hp with hb
    · rcases dict_insert_mem hp with h1 | h1
      · subst h1
        exact ⟨hb.1, hb.2⟩
      · exact hm p h1
    · exact hm p hp

lemma merge_into_wf {d : DayData} (hd : record_wf d) (wt : String) (h : ℚ) :
    record_wf (merge_into d wt h) := by
  obtain ⟨h1, h2, _⟩ := hd
  unfold merge_into
  dsimp only
  split_ifs <;> exact ⟨h1, h2, rfl⟩

lemma new_day_data_wf {day : Nat} (h1 : 1 ≤ day) (h31 : day ≤ 31) (wt : String) (h : ℚ)
    (pc : String) : record_wf (new_day_data day wt h pc) := by
  refine ⟨h1, h31, ?_⟩
  unfold new_day_data
  dsimp only
  by_cases hbt : wt = "business-trip"
  · simp [hbt]
  · by_cases hnw : wt = "normal-work"
    · simp [hbt, hnw]
    · simp [hbt, hnw]

lemma add_hours_wf :
    ∀ (wd : List DayData), (∀ r ∈ wd, record_wf r) →
      ∀ {day : Nat}, 1 ≤ day → day ≤ 31 → ∀ (wt : String) (h : ℚ) (pc : String),
      ∀ r ∈ add_hours wd day wt h pc, record_wf r := by
  intro wd
  induction wd with
  | nil =>
    intro _ day h1 h31 wt h pc r hr
    rw [add_hours, List.mem_singleton] at hr
    subst hr
    exact new_day_data_wf h1 h31 wt h pc
  | cons d ds ih =>
    intro hall day h1 h31 wt h pc r hr
    rw [add_hours] at hr
    split_ifs at hr with hd
    · rcases List.mem_cons.mp hr with h' | h'
      · subst h'
        exact merge_into_wf (hall d (List.mem_cons_self d ds)) wt h
      · exact hall r (List.mem_cons_of_mem d h')
    · rcases List.mem_cons.mp hr with h' | h'
      · subst h'
        exact hall r (List.mem_cons_self r ds)
      · exact ih (fun x hx => hall x (List.mem_cons_of_mem d hx)) h1 h31 wt h pc r h'

lemma process_cell_wf {wd : List DayData} {row : List String} {wt pc : String}
    {day ci : Nat} (hall : ∀ r ∈ wd, record_wf r) (h1 : 1 ≤ day) (h31 : day ≤ 31) :
    ∀ r ∈ process_cell wd row wt pc day ci, record_wf r := by
  intro r hr
  unfold process_cell at hr
  cases hpc : cell_positive_hours row ci with
  | none => rw [hpc] at hr; exact hall r hr
  | some hours => rw [hpc] at hr; exact add_hours_wf wd hall h1 h31 wt hours pc r hr

lemma process_row_wf {wd : List DayData} {day_columns : List (Nat × Nat)}
    {row : List String} (hall : ∀ r ∈ wd, record_wf r)
    (hbounds : ∀ p ∈ day_columns, 1 ≤ p.1 ∧ p.1 ≤ 31) :
    ∀ r ∈ process_row wd day_columns row, record_wf r := by
  simp only [process_row]
  split_ifs <;>
    first
      | exact hall
      | · refine foldl_inv_mem (fun l => ∀ r ∈ l, record_wf r) _ day_columns ?_ wd hall
          intro b p hp hb
          exact process_cell_wf hb (hbounds p hp).1 (hbounds p hp).2

lemma process_table_wf {wd : List DayData} {table : Grid}
    (hall : ∀ r ∈ wd, record_wf r) : ∀ r ∈ process_table wd table, record_wf r := by
  simp only [process_table]
  split_ifs <;>
    first
      | exact hall
      | · refine foldl_inv_mem (fun l => ∀ r ∈ l, record_wf r) _ (table.drop 1) ?_ wd hall
          intro b row _ hb
          exact process_row_wf hb (build_day_columns_bounds (table.headD []))

lemma mem_insert_by_day {r d : DayData} {l : List DayData} :
    r ∈ insert_by_day d l ↔ r = d ∨ r ∈ l := by
  induction l with
  | nil => simp [insert_by_day]
  | cons e es ih =>
    rw [insert_by_day]
    split_ifs with h
    · constructor
      · intro hm
        rcases List.mem_cons.mp hm with h1 | h1
        · exact Or.inl h1
        · exact Or.inr h1
      · intro hm
        rcases hm with h1 | h1
        · exact h1 ▸ List.mem_cons_self d _
        · exact List.mem_cons_of_mem d h1
    · rw [List.mem_cons, ih, List.mem_cons]
      tauto

lemma mem_sort_by_day {r : DayData} {l : List DayData} :
    r ∈ sort_by_day l ↔ r ∈ l := by
  unfold sort_by_day
  suffices h : ∀ (l : List DayData) (acc : List DayData),
      r ∈ l.foldl (fun acc d => insert_by_day d acc) acc ↔ r ∈ acc ∨ r ∈ l by
    rw [h l []]
    simp
  intro l
  induction l with
  | nil => intro acc; simp
  | cons d ds ih =>
    intro acc
    rw [List.foldl_cons, ih, mem_insert_by_day, List.mem_cons]
    tauto

/-- C2: Every record produced by the table aggregator has its day in
`[1, 31]` (days only enter through header cells that passed the `1 ≤ d ≤ 31`
guard) and `totalHours` equal to `totalHours001 + totalHours002` (exactly,
in the idealised rational model of float accumulation). -/
theorem C2_record_invariants (tables : List Grid) :
    ∀ r ∈ parse_stroskovnik_table tables,
      (1 ≤ r.day ∧ r.day ≤ 31) ∧ r.totalHours = r.totalHours001 + r.totalHours002 := by
  intro r hr
  unfold parse_stroskovnik_table at hr
  rw [mem_sort_by_day] at hr
  have hall : ∀ x ∈ tables.foldl process_table [], record_wf x := by
    refine foldl_inv_mem (fun l => ∀ r ∈ l, record_wf r) _ tables
      (fun b t _ hb => process_table_wf hb) [] ?_
    intro x hx
    exact absurd hx (List.not_mem_nil x)
  obtain ⟨h1, h31, hsum⟩ := hall r hr
  exact ⟨⟨h1, h31⟩, hsum⟩

/-- C2 witness: the record aggregated from the concrete `tiny_grid` has its
day in range and its total equal to the sum of the accumulators. -/
theorem C2_record_invariants_witness :
    ∃ r, r ∈ parse_stroskovnik_table [tiny_grid] ∧
      (1 ≤ r.day ∧ r.day ≤ 31) ∧ r.totalHours = r.totalHours001 + r.totalHours002 := by
  refine ⟨(parse_stroskovnik_table [tiny_grid]).headD (new_day_data 1 "other" 0 ""), ?_, ?_⟩
  · decide
  · exact C2_record_invariants [tiny_grid] _ (by decide)

lemma calc_all_output_stable (base : ℤ) (offs : Nat → ℤ) :
    ∀ (l : List DayData) (k : Nat),
      ∀ d ∈ (calculate_times_for_all_days base offs k l).1, synth_stable d := by
  intro l
  induction l with
  | nil =>
    intro k d hd
    rw [calculate_times_for_all_days] at hd
    exact absurd hd (List.not_mem_nil d)
  | cons x xs ih =>
    intro k d hd
    rw [calculate_times_for_all_days] at hd
    split_ifs at hd with hc
    · dsimp only at hd
      rcases List.mem_cons.mp hd with h | h
      · subst h
        intro hcon
        exact Option.some_ne_none _ hcon.2
      · exact ih (k + 1) d h
    · dsimp only at hd
      rcases List.mem_cons.mp hd with h | h
      · subst h
        exact hc
      · exact ih k d h

lemma calc_all_stable (base : ℤ) (offs : Nat → ℤ) :
    ∀ (l : List DayData) (k : Nat), (∀ d ∈ l, synth_stable d) →
      calculate_times_for_all_days base offs k l = (l, k) := by
  intro l
  induction l with
  | nil => intro k _; rw [calculate_times_for_all_days]
  | cons x xs ih =>
    intro k hall
    rw [calculate_times_for_all_days]
    rw [if_neg (hall x (List.mem_cons_self x xs))]
    rw [ih k (fun d hd => hall d (List.mem_cons_of_mem x hd))]

/-- C3: Time synthesis is idempotent and memoizing.  After one synthesis
pass has stored arrival/departure/break on the records (source lines
458-465), any later pass — with any other random stream, starting counter or
arrival base — returns exactly the stored records and consumes no random
draws (the returned draw counter stays at its starting value): stored times
are never recomputed. -/
theorem C3_synthesis_idempotent (base base2 : ℤ) (offs offs2 : Nat → ℤ) (k j : Nat)
    (table : List DayData) :
    calculate_times_for_all_days base2 offs2 j
        (calculate_times_for_all_days base offs k table).1 =
      ((calculate_times_for_all_days base offs k table).1, j) :=
  calc_all_stable base2 offs2 _ j (calc_all_output_stable base offs table k)

lemma calc_all_zip (base : ℤ) (offs : Nat → ℤ) :
    ∀ (l : List DayData) (k : Nat),
      ((calculate_times_for_all_days base offs k l).1).length = l.length ∧
      ∀ p ∈ l.zip (calculate_times_for_all_days base offs k l).1,
        (synth_stable p.1 → p.2 = p.1) ∧
        (¬ synth_stable p.1 → ∃ v,
          p.2 = { p.1 with
                  arrival := some ((calculate_times base v p.1.totalHours001).arrival),
                  departure := some ((calculate_times base v p.1.totalHours001).departure),
                  breakMinutes := some ((calculate_times base v p.1.totalHours001).break_minutes) }) := by
  intro l
  induction l with
  | nil =>
    intro k
    rw [calculate_times_for_all_days]
    exact ⟨rfl, by intro p hp; exact absurd hp (List.not_mem_nil p)⟩
  | cons x xs ih =>
    intro k
    rw [calculate_times_for_all_days]
    split_ifs with hc
    · dsimp only
      refine ⟨by simp [(ih (k + 1)).1], ?_⟩
      intro p hp
      rw [List.zip_cons_cons, List.mem_cons] at hp
      rcases hp with hp | hp
      · subst hp
        constructor
        · intro hstable
          exact absurd hc hstable
        · intro _
          exact ⟨offs k, rfl⟩
      · exact (ih (k + 1)).2 p hp
    · dsimp only
      refine ⟨by simp [(ih k).1], ?_⟩
      intro p hp
      rw [List.zip_cons_cons, List.mem_cons] at hp
      rcases hp with hp | hp
      · subst hp
        constructor
        · intro _
          rfl
        · intro hstable
          exact absurd hc hstable
      · exact (ih k).2 p hp

/-- C6: For a normal-work record the synthesized times follow the exact
formulas of `calculate_times` (source lines 242-260): for the drawn offset
`variation`, arrival is `base + variation` minutes, departure adds
`round(totalHours001 * 60)` work minutes, and the break is
`round(30 * totalHours001 / 8)`; and business-trip records are left
completely untouched by the synthesis pass (no times are computed for
them, source line 461). -/
theorem C6_time_synthesis_formulas :
    (∀ (base variation : ℤ) (h : ℚ),
      calculate_times base variation h =
        { arrival := format_time (base + variation),
          departure := format_time (base + variation + pyRound (h * 60)),
          break_minutes := pyRound (30 * (h / 8)) }) ∧
    (∀ (base : ℤ) (offs : Nat → ℤ) (k : Nat) (table : List DayData)
      (p : DayData × DayData),
      p ∈ table.zip (calculate_times_for_all_days base offs k table).1 →
      p.1.type = "business-trip" → p.2 = p.1) := by
  constructor
  · intro base variation h
    rfl
  · intro base offs k table p hp htrip
    refine ((calc_all_zip base offs table k).2 p hp).1 ?_
    intro hcon
    exact hcon.1 htrip

/-- C6 witness: concrete evaluation of both halves — the formulas at
base 09:00, offset +3, 8 hours, and the untouched business-trip record. -/
theorem C6_time_synthesis_formulas_witness :
    calculate_times 540 3 8 =
      { arrival := "09:03", departure := "17:03", break_minutes := 30 } ∧
    ((trip_record, trip_record) ∈
        [trip_record].zip (calculate_times_for_all_days 540 (fun _ => 0) 0 [trip_record]).1 ∧
      trip_record.type = "business-trip" ∧
      (trip_record, trip_record).2 = (trip_record, trip_record).1) := by
  constructor
  · rw [C6_time_synthesis_formulas.1 540 3 8]
    have h1 : (8 : ℚ) * 60 = ((480 : ℤ) : ℚ) := by norm_num
    have h2 : 30 * ((8 : ℚ) / 8) = ((30 : ℤ) : ℚ) := by norm_num
    rw [h1, h2, pyRound_intCast, pyRound_intCast]
    decide
  · refine ⟨by decide, by decide, ?_⟩
    exact C6_time_synthesis_formulas.2 540 (fun _ => 0) 0 [trip_record]
      (trip_record, trip_record) (by decide) (by decide)

/-- C5: A synthesized departure is never before the arrival: for any base
arrival, any drawn offset within the scattering bound, and any nonnegative
normal-work hour total, the arrival and departure strings produced by
`calculate_times` (source lines 242-260) parse back to minute counts with
`departure ≥ arrival`. -/
theorem C5_departure_not_before_arrival (base variation s : ℤ) (h : ℚ)
    (_hs : 0 ≤ s) (_hlo : -s ≤ variation) (_hhi : variation ≤ s) (hh : 0 ≤ h) :
    ∃ a d : ℤ,
      hhmm_to_minutes (calculate_times base variation h).arrival = some a ∧
      hhmm_to_minutes (calculate_times base variation h).departure = some d ∧
      a ≤ d := by
  refine ⟨base + variation, base + variation + pyRound (h * 60), ?_, ?_, ?_⟩
  · exact hhmm_format_time (base + variation)
  · exact hhmm_format_time (base + variation + pyRound (h * 60))
  · have hnn : 0 ≤ pyRound (h * 60) := pyRound_nonneg (mul_nonneg hh (by norm_num))
    omega

/-- C5 witness: base 09:00, scattering 10, offset +3, 8 hours. -/
theorem C5_departure_not_before_arrival_witness :
    ((0 : ℤ) ≤ 10 ∧ (-10 : ℤ) ≤ 3 ∧ (3 : ℤ) ≤ 10 ∧ (0 : ℚ) ≤ 8) ∧
    ∃ a d : ℤ,
      hhmm_to_minutes (calculate_times 540 3 8).arrival = some a ∧
      hhmm_to_minutes (calculate_times 540 3 8).departure = some d ∧
      a ≤ d :=
  ⟨⟨by decide, by decide, by decide, by decide⟩,
   C5_departure_not_before_arrival 540 3 10 8 (by decide) (by decide) (by decide) (by decide)⟩

lemma mem_zip_right {α β : Type _} :
    ∀ {l1 : List α} {l2 : List β}, l1.length = l2.length →
      ∀ b ∈ l2, ∃ a, (a, b) ∈ l1.zip l2 := by
  intro l1
  induction l1 with
  | nil =>
    intro l2 hlen b hb
    cases l2 with
    | nil => exact absurd hb (List.not_mem_nil b)
    | cons y ys => simp at hlen
  | cons x xs ih =>
    intro l2 hlen b hb
    cases l2 with
    | nil => exact absurd hb (List.not_mem_nil b)
    | cons y ys =>
      rw [List.zip_cons_cons]
      rcases List.mem_cons.mp hb with h | h
      · exact ⟨x, by rw [h]; exact List.mem_cons_self _ _⟩
      · obtain ⟨a, ha⟩ := ih (by simpa using hlen) b h
        exact ⟨a, List.mem_cons_of_mem _ ha⟩

lemma primary_departure_format (base : ℤ) (offs : Nat → ℤ) (table : List DayData)
    (hfresh : ∀ r ∈ table, ¬ r.type = "business-trip" → r.arrival = none) :
    ∀ r ∈ (calculate_times_for_all_days base offs 0 table).1,
      ¬ r.type = "business-trip" → ∃ m, r.departure = some (format_time m) := by
  intro r' hr' htype
  obtain ⟨hlen, hzip⟩ := calc_all_zip base offs table 0
  obtain ⟨r, hmem⟩ := mem_zip_right hlen.symm r' hr'
  have hr : r ∈ table := (List.of_mem_zip hmem).1
  obtain ⟨hstable_case, hchanged_case⟩ := hzip (r, r') hmem
  by_cases hs : synth_stable r
  · have heq := hstable_case hs
    dsimp only at heq
    rw [heq] at htype
    exact absurd ⟨htype, hfresh r hr htype⟩ hs
  · obtain ⟨v, hv⟩ := hchanged_case hs
    refine ⟨base + v + pyRound (r.totalHours001 * 60), ?_⟩
    dsimp only at hv
    rw [hv]
    rfl

lemma option_map_list_all_some (f : DayData → Option SecondaryDayData) :
    ∀ (l : List DayData), (∀ r ∈ l, (f r).isSome) →
      ∃ out, option_map_list f l = some out ∧ out.length = l.length ∧
        ∀ p ∈ l.zip out, f p.1 = some p.2 := by
  intro l
  induction l with
  | nil =>
    intro _
    exact ⟨[], rfl, rfl, by intro p hp; exact absurd hp (List.not_mem_nil p)⟩
  | cons x xs ih =>
    intro hall
    obtain ⟨out, hout, hlen, hzip⟩ := ih (fun r hr => hall r (List.mem_cons_of_mem x hr))
    obtain ⟨e, he⟩ := Option.isSome_iff_exists.mp (hall x (List.mem_cons_self x xs))
    refine ⟨e :: out, ?_, by simp [hlen], ?_⟩
    · rw [option_map_list, he, hout]
    · intro p hp
      rw [List.zip_cons_cons, List.mem_cons] at hp
      rcases hp with hp | hp
      · subst hp
        exact he
      · exact hzip p hp

/-- C4: Secondary contiguity.  Starting from aggregator output (no times
stored yet), `_create_secondary_data` (source lines 467-518) succeeds, and
for every normal-work day the secondary record's arrival string equals the
primary record's departure string exactly — the secondary session starts at
the primary session's end with no independent scattering. -/
theorem C4_secondary_contiguity (base : ℤ) (offs : Nat → ℤ) (sw : SecondaryWork)
    (table : List DayData)
    (hfresh : ∀ r ∈ table, ¬ r.type = "business-trip" → r.arrival = none) :
    ∃ primary sec,
      create_secondary_data base offs sw table = some (primary, sec) ∧
      sec.length = primary.length ∧
      ∀ p ∈ primary.zip sec,
        ¬ p.1.type = "business-trip" → p.2.arrival = p.1.departure := by
  have hdep := primary_departure_format base offs table hfresh
  have hsome : ∀ r ∈ (calculate_times_for_all_days base offs 0 table).1,
      (secondary_entry sw r).isSome := by
    intro r hr
    by_cases ht : r.type = "business-trip"
    · unfold secondary_entry
      rw [if_pos ht]
      rfl
    · obtain ⟨m, hm⟩ := hdep r hr ht
      unfold secondary_entry
      rw [if_neg ht, hm]
      simp [hhmm_format_time]
  obtain ⟨sec, hsec, hlen, hzip⟩ :=
    option_map_list_all_some (secondary_entry sw)
      (calculate_times_for_all_days base offs 0 table).1 hsome
  refine ⟨(calculate_times_for_all_days base offs 0 table).1, sec, ?_, hlen, ?_⟩
  · simp only [create_secondary_data]
    rw [hsec]
  · intro p hp ht
    have hfe := hzip p hp
    obtain ⟨m, hm⟩ := hdep p.1 (List.of_mem_zip hp).1 ht
    unfold secondary_entry at hfe
    rw [if_neg ht, hm] at hfe
    simp only [hhmm_format_time] at hfe
    injection hfe with hfe
    rw [← hfe, hm]

/-- C4 witness: the contiguity theorem applied to one concrete normal-work
record with base 09:00 and a zero offset stream. -/
theorem C4_secondary_contiguity_witness :
    (∀ r ∈ [normal_record], ¬ r.type = "business-trip" → r.arrival = none) ∧
    ∃ primary sec,
      create_secondary_data 540 (fun _ => 0) sw_half [normal_record] = some (primary, sec) ∧
      sec.length = primary.length ∧
      ∀ p ∈ primary.zip sec,
        ¬ p.1.type = "business-trip" → p.2.arrival = p.1.departure :=
  ⟨by decide, C4_secondary_contiguity 540 (fun _ => 0) sw_half [normal_record] (by decide)⟩

/-- C7 counterexample: in `c7_grid` the mapped pair (day 1, column 1) is
within the data row's bounds and its cell parses to the positive value 8,
yet aggregation produces no record at all — the row is skipped whole at
source line 169 because the other mapped day column 5 lies beyond the row's
end.  This falsifies the claim that such a cell still merges. -/
theorem C7_counterexample :
    (1, 1) ∈ build_day_columns ["Dejanske ure", "1", "a", "b", "c", "5"] ∧
    1 < (["001", "8", "001", "0"] : List String).length ∧
    cell_positive_hours ["001", "8", "001", "0"] 1 = some 8 ∧
    parse_stroskovnik_table [c7_grid] = [] := by
  refine ⟨by decide, by decide, by decide, by decide⟩

lemma add_hours_creates (wd : List DayData) (day : Nat) (wt : String) (h : ℚ) (pc : String) :
    ∃ r ∈ add_hours wd day wt h pc, r.day = day := by
  induction wd with
  | nil =>
    refine ⟨new_day_data day wt h pc, List.mem_singleton.mpr rfl, rfl⟩
  | cons d ds ih =>
    rw [add_hours]
    split_ifs with hd
    · exact ⟨merge_into d wt h, List.mem_cons_self _ _, by rw [merge_into_day, hd]⟩
    · obtain ⟨r, hr, hday⟩ := ih
      exact ⟨r, List.mem_cons_of_mem d hr, hday⟩

lemma add_hours_keeps_days (wd : List DayData) (day : Nat) (wt : String) (h : ℚ)
    (pc : String) (d' : Nat) (hex : ∃ r ∈ wd, r.day = d') :
    ∃ r ∈ add_hours wd day wt h pc, r.day = d' := by
  induction wd with
  | nil =>
    obtain ⟨r, hr, _⟩ := hex
    exact absurd hr (List.not_mem_nil r)
  | cons d ds ih =>
    obtain ⟨r, hr, hday⟩ := hex
    rw [add_hours]
    split_ifs with hd
    · rcases List.mem_cons.mp hr with h1 | h1
      · subst h1
        exact ⟨merge_into r wt h, List.mem_cons_self _ _, by rw [merge_into_day, hday]⟩
      · exact ⟨r, List.mem_cons_of_mem _ h1, hday⟩
    · rcases List.mem_cons.mp hr with h1 | h1
      · subst h1
        exact ⟨r, List.mem_cons_self _ _, hday⟩
      · obtain ⟨r2, hr2, hday2⟩ := ih ⟨r, h1, hday⟩
        exact ⟨r2, List.mem_cons_of_mem _ hr2, hday2⟩

lemma process_cell_keeps_days {wd : List DayData} {row : List String} {wt pc : String}
    {day ci d' : Nat} (hex : ∃ r ∈ wd, r.day = d') :
    ∃ r ∈ process_cell wd row wt pc day ci, r.day = d' := by
  unfold process_cell
  cases hc : cell_positive_hours row ci with
  | none => exact hex
  | some hours => exact add_hours_keeps_days wd day wt hours pc d' hex

lemma fold_cells_creates {row : List String} {wt pc : String} {d ci : Nat} {h : ℚ}
    (hcell : cell_positive_hours row ci = some h) :
    ∀ (l : List (Nat × Nat)) (wd : List DayData), (d, ci) ∈ l →
      ∃ r ∈ l.foldl (fun acc dc => process_cell acc row wt pc dc.1 dc.2) wd, r.day = d := by
  intro l
  induction l with
  | nil =>
    intro wd hmem
    exact absurd hmem (List.not_mem_nil _)
  | cons p ps ih =>
    intro wd hmem
    rw [List.foldl_cons]
    rcases List.mem_cons.mp hmem with h1 | h1
    · subst h1
      refine foldl_inv_mem (fun wd => ∃ r ∈ wd, r.day = d) _ ps
        (fun b a _ hb => process_cell_keeps_days hb) _ ?_
      unfold process_cell
      rw [hcell]
      exact add_hours_creates wd d wt h pc
    · exact ih _ h1

/-- C7 (amended): A mapped `(day, columnIndex)` cell with a positive parsed
value merges into the day's record (create-if-absent) provided the data row
is longer than the largest mapped column index; a row not longer than the
largest mapped column index is skipped whole (source line 169), even for its
in-bounds cells.  Empty, zero, and unparseable cells contribute nothing
silently. -/
theorem C7_amended_cell_merge :
    (∀ (day_columns : List (Nat × Nat)) (row : List String) (wd : List DayData)
      (d ci : Nat) (h : ℚ),
      (d, ci) ∈ day_columns →
      dict_values_max day_columns < row.length →
      ¬ is_summary_row (py_lower (py_strip (row.headD ""))) = true →
      cell_positive_hours row ci = some h →
      ∃ r ∈ process_row wd day_columns row, r.day = d) ∧
    (∀ (wd : List DayData) (row : List String) (wt pc : String) (day ci : Nat),
      cell_positive_hours row ci = none →
      process_cell wd row wt pc day ci = wd) := by
  constructor
  · intro day_columns row wd d ci h hmem hlen hsum hcell
    simp only [process_row]
    rw [if_neg (not_le.mpr hlen), if_neg hsum]
    exact fold_cells_creates hcell day_columns wd hmem
  · intro wd row wt pc day ci hnone
    unfold process_cell
    rw [hnone]

/-- C7 witness: both amended halves at concrete inputs — the in-bounds
positive cell of a long-enough row creates a day 1 record, and an
out-of-bounds cell leaves the state unchanged. -/
theorem C7_amended_cell_merge_witness :
    ((1, 1) ∈ [((1 : Nat), (1 : Nat))] ∧
      dict_values_max [(1, 1)] < (["001", "8", "001"] : List String).length ∧
      ¬ is_summary_row (py_lower (py_strip ((["001", "8", "001"] : List String).headD ""))) = true ∧
      cell_positive_hours ["001", "8", "001"] 1 = some 8 ∧
      ∃ r ∈ process_row [] [(1, 1)] ["001", "8", "001"], r.day = 1) ∧
    (cell_positive_hours ["x"] 5 = none ∧
      process_cell [] ["x"] "normal-work" "p" 1 5 = []) :=
  ⟨⟨by decide, by decide, by decide, by decide,
    C7_amended_cell_merge.1 [(1, 1)] ["001", "8", "001"] [] 1 1 8 (by decide) (by decide)
      (by decide) (by decide)⟩,
   ⟨by decide, C7_amended_cell_merge.2 [] ["x"] "normal-work" "p" 1 5 (by decide)⟩⟩

/-- C8 counterexample: on Example A's grid the aggregator produces no day 1
record at all (the day 1 column holds the unparseable cell "proj"), and the
day 3 record holds 8 normal-work hours (cell "8" under day column 3, work
type from row[2] = "001") — not the claimed 8-hour day 1 and 4-hour
business-trip day 3. -/
theorem C8_counterexample :
    (parse_stroskovnik_table [c8_grid]).find? (fun r => r.day == 1) = none ∧
    (parse_stroskovnik_table [c8_grid]).find? (fun r => r.day == 3) =
      some { day := 3, totalHours001 := 8, totalHours002 := 0, hasBusinessTrip := false,
             type := "normal-work", totalHours := 8, projectCode := "001" } := by
  refine ⟨by decide, by decide⟩

/-- C8 (amended): For the header `["Šifra","1","2","3","Dejanske ure"]` and
the data row `["001","proj","001","8","0","","4"]`, the day column map is
day 1 → column 1, day 2 → column 2, day 3 → column 3, so aggregation yields
day 2 = 1 hour normal-work (the cell "001" parses as the number 1) and
day 3 = 8 hours normal-work; day 1's cell "proj" is unparseable and
contributes nothing, and no business-trip record arises (the work-type code
in row[2] is "001"). -/
theorem C8_amended_example_a :
    parse_stroskovnik_table [c8_grid] =
      [{ day := 2, totalHours001 := 1, totalHours002 := 0, hasBusinessTrip := false,
         type := "normal-work", totalHours := 1, projectCode := "001" },
       { day := 3, totalHours001 := 8, totalHours002 := 0, hasBusinessTrip := false,
         type := "normal-work", totalHours := 8, projectCode := "001" }] := by
  decide

/-- C9 counterexample: the dd.mm.yyyy-dd.mm.yyyy date range is absent from
the whole page text, yet `_parse_extracted_data` succeeds (the raw label
line "maj 2025" becomes the period and month/year fall back to
"oktober"/"2025") — it does not return none as claimed. -/
theorem C9_counterexample :
    search_date_range c9_text.toList = none ∧
    parse_extracted_data c9_text [tiny_grid] =
      some { name := "A", period := "maj 2025", month := "oktober", year := "2025",
             working_days := 1,
             table_data := [{ day := 1, totalHours001 := 8, totalHours002 := 0,
                              hasBusinessTrip := false, type := "normal-work",
                              totalHours := 8, projectCode := "8" }] } := by
  refine ⟨by decide, by decide⟩

/-- C9 (amended): Period resolution fails for the whole document (returns
none) whenever the employee-name label pattern or the period label pattern
is absent from the page text (source lines 90-101).  (When the period label
matches but its line lacks a dd.mm.yyyy-dd.mm.yyyy range, parsing does not
fail: the raw line is used as the period.) -/
theorem C9_amended_label_absence_fails (text : String) (tables : List Grid)
    (habs : search_label "Ime in priimek:".toList text.toList = none ∨
      search_label "STROŠKOVNIK ZA ODBOBJE:".toList text.toList = none) :
    parse_extracted_data text tables = none := by
  unfold parse_extracted_data
  rcases habs with h | h
  · rw [h]
  · cases hn : search_label "Ime in priimek:".toList text.toList with
    | none => rfl
    | some cap => rw [h]

/-- C9 witness: a text with no labels at all resolves to none. -/
theorem C9_amended_label_absence_fails_witness :
    search_label "Ime in priimek:".toList "xyz".toList = none ∧
    parse_extracted_data "xyz" [] = none :=
  ⟨by decide, C9_amended_label_absence_fails "xyz" [] (Or.inl (by decide))⟩

lemma calculate_times_zero (base v : ℤ) :
    calculate_times base v 0 =
      { arrival := format_time (base + v), departure := format_time (base + v),
        break_minutes := 0 } := by
  unfold calculate_times
  have h1 : pyRound ((0 : ℚ) * 60) = 0 := by
    rw [show ((0 : ℚ) * 60) = ((0 : ℤ) : ℚ) by norm_num, pyRound_intCast]
  have h2 : pyRound (30 * ((0 : ℚ) / 8)) = 0 := by
    rw [show (30 * ((0 : ℚ) / 8)) = ((0 : ℤ) : ℚ) by norm_num, pyRound_intCast]
  rw [h1, h2]
  dsimp only
  rw [add_zero]

lemma new_day_data_other_fields (day : Nat) (h : ℚ) (pc : String) :
    (new_day_data day "other" h pc).type = "normal-work" ∧
      (new_day_data day "other" h pc).totalHours001 = 0 ∧
      (new_day_data day "other" h pc).totalHours002 = 0 ∧
      (new_day_data day "other" h pc).totalHours = 0 := by
  unfold new_day_data
  refine ⟨?_, ?_, ?_, ?_⟩ <;> dsimp only <;> rw [if_neg (by decide)]

lemma add_hours_absent :
    ∀ (wd : List DayData) {day : Nat}, find_day wd day = none →
      ∀ (wt : String) (h : ℚ) (pc : String),
      add_hours wd day wt h pc = wd ++ [new_day_data day wt h pc] := by
  intro wd
  induction wd with
  | nil => intro day _ wt h pc; rfl
  | cons d ds ih =>
    intro day habs wt h pc
    by_cases hd : d.day = day
    · rw [find_day_cons_pos hd] at habs
      exact absurd habs (Option.some_ne_none d)
    · rw [find_day_cons_neg hd] at habs
      rw [add_hours, if_neg hd, ih habs wt h pc, List.cons_append]

/-- C10: A data row with an 'other' work-type code (neither "001" nor
"002") and a positive hours cell for a day with no existing record still
creates a DayRecord for that day (source lines 216-226): the record is
appended with type "normal-work" and all hour accumulators and the total
equal to 0 (the 'other' hours are excluded from every total), and the
later synthesis pass (source lines 458-465) gives it times whose departure
equals its arrival (zero work minutes) with a zero break. -/
theorem C10_other_code_zero_record (wd : List DayData) (day : Nat) (h : ℚ) (pc : String)
    (base : ℤ) (offs : Nat → ℤ) (habs : find_day wd day = none) (_hpos : 0 < h) :
    add_hours wd day "other" h pc = wd ++ [new_day_data day "other" h pc] ∧
    (new_day_data day "other" h pc).type = "normal-work" ∧
    (new_day_data day "other" h pc).totalHours001 = 0 ∧
    (new_day_data day "other" h pc).totalHours002 = 0 ∧
    (new_day_data day "other" h pc).totalHours = 0 ∧
    (calculate_times_for_all_days base offs 0 [new_day_data day "other" h pc]).1 =
      [{ new_day_data day "other" h pc with
         arrival := some (format_time (base + offs 0)),
         departure := some (format_time (base + offs 0)),
         breakMinutes := some 0 }] := by
  obtain ⟨htype, h001, h002, htot⟩ := new_day_data_other_fields day h pc
  refine ⟨add_hours_absent wd habs "other" h pc, htype, h001, h002, htot, ?_⟩
  rw [calculate_times_for_all_days]
  rw [if_pos ⟨by rw [htype]; decide, rfl⟩]
  dsimp only
  rw [calculate_times_for_all_days]
  rw [h001, calculate_times_zero]

/-- C10 witness: the theorem at a concrete 'other' 2-hour contribution on
day 5 over an empty state, with base 09:00 and zero offset. -/
theorem C10_other_code_zero_record_witness :
    (find_day [] 5 = none ∧ (0 : ℚ) < 2) ∧
    (add_hours [] 5 "other" 2 "x" = [] ++ [new_day_data 5 "other" 2 "x"] ∧
      (new_day_data 5 "other" 2 "x").type = "normal-work" ∧
      (new_day_data 5 "other" 2 "x").totalHours001 = 0 ∧
      (new_day_data 5 "other" 2 "x").totalHours002 = 0 ∧
      (new_day_data 5 "other" 2 "x").totalHours = 0 ∧
      (calculate_times_for_all_days 540 (fun _ => 0) 0 [new_day_data 5 "other" 2 "x"]).1 =
        [{ new_day_data 5 "other" 2 "x" with
           arrival := some (format_time (540 + (fun _ : Nat => (0 : ℤ)) 0)),
           departure := some (format_time (540 + (fun _ : Nat => (0 : ℤ)) 0)),
           breakMinutes := some 0 }]) :=
  ⟨⟨by decide, by decide⟩,
   C10_other_code_zero_record [] 5 2 "x" 540 (fun _ => 0) (by decide) (by decide)⟩
